import Mathlib

/-!
Verification of the safe-exploration reachability/MPC specification against the
repository sources.  The environment layer (`environments.py`) and the rollout
loop (`episode_runner.py`) are embedded directly from the code; the reachability
core (`gp_reachability*.py`) and the MPC decision layer (`safempc_cem.py`) are
not part of the available sources, so those components are modelled from the
specification text, as marked in the individual doc comments.

All numeric code is embedded over `ℚ` (exact arithmetic); the safety-certificate
formula, which contains a square root, is embedded as a `Prop` over `ℝ`.
External collaborators (the ODE integrator, scipy's discretization routine, the
GP predictor, and the heuristic scalar choices the spec leaves configurable) are
parameters of the embedding, exactly as the spec declares them external.
-/

namespace SafeExploration

/-! ## Reachability core (modelled from the spec, §4.1 / §4.2) -/

/-- Modelled from the spec: the external GP regression model of §6, exposing
`predict(state, action) → (mean, std)`.  `gp_reachability*.py` is missing from
the sources; the predictor is a black box to the core. -/
structure GP (n_s n_u : ℕ) where
  predict : (Fin n_s → ℚ) → (Fin n_u → ℚ) → (Fin n_s → ℚ) × (Fin n_s → ℚ)

/-- Modelled from the spec: the parts of §4.1 the spec leaves configurable —
the scalar choice for the ellipsoid-sum over-approximation (step 5, a tunable
heuristic per §9) and the Lipschitz-correction ellipsoid of step 3 (the extent
`r` is only described as derived from `Q` and the feedback gain's action on
it). -/
structure ReachStrategy (n_s n_u : ℕ) where
  kappa : Matrix (Fin n_s) (Fin n_s) ℚ → Matrix (Fin n_s) (Fin n_s) ℚ → ℚ
  lipschitz_shape : Matrix (Fin n_s) (Fin n_s) ℚ → Matrix (Fin n_u) (Fin n_s) ℚ →
    (Fin n_s → ℚ) → (Fin n_s → ℚ) → Matrix (Fin n_s) (Fin n_s) ℚ

/-- Modelled from the spec, §4.1 step 5: the Minkowski sum of two ellipsoids
with shape matrices `q1, q2` is over-approximated by
`(1 + 1/κ)·q1 + (1 + κ)·q2`. -/
def sum_two_ellipsoids {n : ℕ} (kap : ℚ) (q1 q2 : Matrix (Fin n) (Fin n) ℚ) :
    Matrix (Fin n) (Fin n) ℚ :=
  (1 + 1 / kap) • q1 + (1 + kap) • q2

/-- Modelled from the spec, §4.1 step 4: the one-step center update
`pNew = A·p + B·u + mu`, or `pNew = mu` when no affine local model is given. -/
def center_update {n_s n_u : ℕ}
    (ab : Option (Matrix (Fin n_s) (Fin n_s) ℚ × Matrix (Fin n_s) (Fin n_u) ℚ))
    (p : Fin n_s → ℚ) (u : Fin n_u → ℚ) (mu : Fin n_s → ℚ) : Fin n_s → ℚ :=
  match ab with
  | some AB => AB.1.mulVec p + AB.2.mulVec u + mu
  | none => mu

/-- Modelled from the spec, §4.1 step 4(b): the GP variance ellipsoid scaled by
the safety factor, shape matrix `diag(c_safety²·σ²)`. -/
def gp_variance_shape {n_s : ℕ} (c_safety : ℚ) (sigma : Fin n_s → ℚ) :
    Matrix (Fin n_s) (Fin n_s) ℚ :=
  Matrix.diagonal fun i => c_safety ^ 2 * sigma i ^ 2

/-- Modelled from the spec: `gp_reachability.onestep_reachability` (§4.1), the
concrete numeric evaluation path.  Steps: (1) the control at the ellipsoid
center is `k_fb·0 + k_ff = k_ff`; (2) query the GP at `(p, u)`; (4) center
update `A·p + B·u + mu` and the three shape terms — the input ellipsoid mapped
through `A + B·k_fb`, the scaled GP variance ellipsoid, and the Lipschitz
correction; (5) combine pairwise, left to right, with the ellipsoid-sum
over-approximation.  Edge case per the contract: `Q` equal to the zero matrix
means no prior uncertainty, and the result degenerates to the nominal
prediction with shape matrix from the GP variance alone. -/
def onestep_reachability {n_s n_u : ℕ} (strat : ReachStrategy n_s n_u)
    (p : Fin n_s → ℚ) (gp : GP n_s n_u) (k_ff : Fin n_u → ℚ)
    (L_mu L_sigm : Fin n_s → ℚ) (q : Matrix (Fin n_s) (Fin n_s) ℚ)
    (k_fb : Matrix (Fin n_u) (Fin n_s) ℚ) (c_safety : ℚ)
    (ab : Option (Matrix (Fin n_s) (Fin n_s) ℚ × Matrix (Fin n_s) (Fin n_u) ℚ)) :
    (Fin n_s → ℚ) × Matrix (Fin n_s) (Fin n_s) ℚ :=
  let u := k_ff
  let ms := gp.predict p u
  let pNew := center_update ab p u ms.1
  let qGP := gp_variance_shape c_safety ms.2
  if q = 0 then
    (pNew, qGP)
  else
    let lin :=
      match ab with
      | some AB => AB.1 + AB.2 * k_fb
      | none => 1
    let qProp := lin * q * lin.transpose
    let qLip := strat.lipschitz_shape q k_fb L_mu L_sigm
    let qSum1 := sum_two_ellipsoids (strat.kappa qProp qGP) qProp qGP
    (pNew, sum_two_ellipsoids (strat.kappa qSum1 qLip) qSum1 qLip)

/-- Modelled from the spec: `gp_reachability_casadi.onestep_reachability`, the
symbolic/differentiable evaluation path of §4.1.  Per the spec the two paths
are interchangeable evaluations of the same algorithm, so this path evaluates
the identical steps (1)–(5) on the same inputs and strategy. -/
def onestep_reachability_casadi {n_s n_u : ℕ} (strat : ReachStrategy n_s n_u)
    (p : Fin n_s → ℚ) (gp : GP n_s n_u) (k_ff : Fin n_u → ℚ)
    (L_mu L_sigm : Fin n_s → ℚ) (q : Matrix (Fin n_s) (Fin n_s) ℚ)
    (k_fb : Matrix (Fin n_u) (Fin n_s) ℚ) (c_safety : ℚ)
    (ab : Option (Matrix (Fin n_s) (Fin n_s) ℚ × Matrix (Fin n_s) (Fin n_u) ℚ)) :
    (Fin n_s → ℚ) × Matrix (Fin n_s) (Fin n_s) ℚ :=
  let u := k_ff
  let ms := gp.predict p u
  let pNew := center_update ab p u ms.1
  let qGP := gp_variance_shape c_safety ms.2
  if q = 0 then
    (pNew, qGP)
  else
    let lin :=
      match ab with
      | some AB => AB.1 + AB.2 * k_fb
      | none => 1
    let qProp := lin * q * lin.transpose
    let qLip := strat.lipschitz_shape q k_fb L_mu L_sigm
    let qSum1 := sum_two_ellipsoids (strat.kappa qProp qGP) qProp qGP
    (pNew, sum_two_ellipsoids (strat.kappa qSum1 qLip) qSum1 qLip)

/-- A reachability state: an ellipsoid `(center, shape)`. -/
def EllState (n_s : ℕ) : Type :=
  (Fin n_s → ℚ) × Matrix (Fin n_s) (Fin n_s) ℚ

/-- A per-step control law `(k_fb, k_ff)`. -/
def Ctrl (n_s n_u : ℕ) : Type :=
  Matrix (Fin n_u) (Fin n_s) ℚ × (Fin n_u → ℚ)

/-- One application of §4.1 viewed as a state transformer on ellipsoids for a
given control law. -/
def onestep_state {n_s n_u : ℕ} (strat : ReachStrategy n_s n_u) (gp : GP n_s n_u)
    (L_mu L_sigm : Fin n_s → ℚ) (c_safety : ℚ)
    (ab : Option (Matrix (Fin n_s) (Fin n_s) ℚ × Matrix (Fin n_s) (Fin n_u) ℚ))
    (ctrl : Ctrl n_s n_u) (s : EllState n_s) : EllState n_s :=
  onestep_reachability strat s.1 gp ctrl.2 L_mu L_sigm s.2 ctrl.1 c_safety ab

/-- Modelled from the spec, §4.2: the recursion of the multi-step engine,
producing the stacked lists of centers and shape matrices (the analogue of the
`p_all, q_all` arrays of `gp_reachability.multistep_reachability`, which is
missing from the sources).  Each step feeds its output ellipsoid to the next
step as input. -/
def multistep_go {n_s n_u : ℕ} (f : Ctrl n_s n_u → EllState n_s → EllState n_s) :
    EllState n_s → List (Ctrl n_s n_u) →
      List (Fin n_s → ℚ) × List (Matrix (Fin n_s) (Fin n_s) ℚ)
  | _, [] => ([], [])
  | s, c :: rest =>
    let s1 := f c s
    let r := multistep_go f s1 rest
    (s1.1 :: r.1, s1.2 :: r.2)

/-- The per-step control laws the engine applies: the first step uses the
initial control `u0` with no feedback, and each later step uses the initial
gain plus that step's additive correction, with its feedforward term. -/
def multistep_controls {n_s n_u : ℕ} (u0 : Fin n_u → ℚ)
    (k_fb_base : Matrix (Fin n_u) (Fin n_s) ℚ) (steps : List (Ctrl n_s n_u)) :
    List (Ctrl n_s n_u) :=
  (0, u0) :: steps.map fun cs => (k_fb_base + cs.1, cs.2)

/-- Modelled from the spec: `gp_reachability.multistep_reachability` (§4.2).
Given the initial certified ellipsoid `(p0, Q0)`, an initial control `u0`, and
`T − 1` per-step feedback-gain corrections and feedforward terms, produce the
trajectory of `T` centers and `T` shape matrices by repeated application of
§4.1, where at each later step the feedback law is the initial gain plus the
step's additive correction. -/
def multistep_reachability {n_s n_u : ℕ} (strat : ReachStrategy n_s n_u)
    (gp : GP n_s n_u) (L_mu L_sigm : Fin n_s → ℚ) (c_safety : ℚ)
    (ab : Option (Matrix (Fin n_s) (Fin n_s) ℚ × Matrix (Fin n_s) (Fin n_u) ℚ))
    (p0 : Fin n_s → ℚ) (Q0 : Matrix (Fin n_s) (Fin n_s) ℚ) (u0 : Fin n_u → ℚ)
    (k_fb_base : Matrix (Fin n_u) (Fin n_s) ℚ) (steps : List (Ctrl n_s n_u)) :
    List (Fin n_s → ℚ) × List (Matrix (Fin n_s) (Fin n_s) ℚ) :=
  multistep_go (onestep_state strat gp L_mu L_sigm c_safety ab) (p0, Q0)
    (multistep_controls u0 k_fb_base steps)

/-- The manual chain of one-step propagations the claim compares against: apply
the one-step propagator once per control, each step taking the previous step's
output ellipsoid as input, and collect the `T` output ellipsoids. -/
def chain_onestep {n_s n_u : ℕ} (f : Ctrl n_s n_u → EllState n_s → EllState n_s) :
    EllState n_s → List (Ctrl n_s n_u) → List (EllState n_s)
  | _, [] => []
  | s, c :: rest =>
    let s1 := f c s
    s1 :: chain_onestep f s1 rest

/-- The GP of the concrete degenerate scenario: zero predictive mean and zero
predictive standard deviation everywhere. -/
def zero_gp (n_s n_u : ℕ) : GP n_s n_u :=
  ⟨fun _ _ => (fun _ => 0, fun _ => 0)⟩

/-- The `B = [[0], [1]]` input matrix of the concrete `n_s = 2, n_u = 1`
scenario. -/
def scenarioB : Matrix (Fin 2) (Fin 1) ℚ :=
  Matrix.of ![![0], ![1]]

/-! ## Safety certificate checker (modelled from the spec, §4.3) -/

/-- Modelled from the spec, §4.3: the per-row support-function condition
`H_i·p + c_safety·sqrt(H_i·Q·H_iᵗ) ≤ h_i` for one ellipsoid `(p, Q)` and one
constraint row `(H_i, h_i)`.  The checker itself is not among the sources. -/
def row_certified {n : ℕ} (hrow : Fin n → ℝ) (hval : ℝ) (c_safety : ℝ)
    (p : Fin n → ℝ) (Q : Matrix (Fin n) (Fin n) ℝ) : Prop :=
  Matrix.dotProduct hrow p + c_safety * Real.sqrt (Matrix.dotProduct hrow (Q.mulVec hrow)) ≤ hval

/-- Modelled from the spec, §4.3: a trajectory is certified safe iff the
support-function condition holds for every ellipsoid of the trajectory and
every constraint row. -/
def trajectory_certified {m n : ℕ} (H : Matrix (Fin m) (Fin n) ℝ)
    (hvec : Fin m → ℝ) (c_safety : ℝ)
    (traj : List ((Fin n → ℝ) × Matrix (Fin n) (Fin n) ℝ)) : Prop :=
  ∀ e ∈ traj, ∀ i : Fin m, row_certified (fun j => H i j) (hvec i) c_safety e.1 e.2

/-! ## Decision layer result and rollout exit codes -/

/-- The three-variant result type of the decision layer (`MpcResult` in
`safempc_cem.py`, imported by `episode_runner.py`); per the spec the outcome is
always exactly one of these, never a silent default. -/
inductive MpcResult where
  | FOUND_SOLUTION
  | PREVIOUS_SOLUTION
  | SAFE_CONTROLLER
deriving DecidableEq

/-- Modelled from the spec: `solver.get_action` (§4.4), the three-branch
decision procedure of the missing `safempc_cem.py`.  If the optimizer converged
to a certified solution the action is returned with `FOUND_SOLUTION`; otherwise
if the shifted previous trajectory re-certifies, its action is returned with
`PREVIOUS_SOLUTION`; otherwise the known-safe policy's action is returned with
`SAFE_CONTROLLER`. -/
def get_action {Act : Type} (optimized : Option Act) (reusable : Option Act)
    (safe_act : Act) : Act × MpcResult :=
  match optimized with
  | some act => (act, MpcResult.FOUND_SOLUTION)
  | none =>
    match reusable with
    | some act => (act, MpcResult.PREVIOUS_SOLUTION)
    | none => (safe_act, MpcResult.SAFE_CONTROLLER)

/-- From `episode_runner.do_rollout`:
`exit_code = 1 if mpc_result in (MpcResult.FOUND_SOLUTION, MpcResult.PREVIOUS_SOLUTION) else 0`. -/
def rollout_exit_code (r : MpcResult) : ℤ :=
  if r ∈ [MpcResult.FOUND_SOLUTION, MpcResult.PREVIOUS_SOLUTION] then 1 else 0

/-! ## Environment layer (embedded from environments.py) -/

/-- `np.clip(x, lo, hi)` on one component: `min (max x lo) hi` (numpy clips to
`hi` even when `lo > hi`). -/
def npClip (x lo hi : ℚ) : ℚ :=
  min (max x lo) hi

/-- The state of `Environment.step`: the normalization factors and action
bounds of the environment, together with its external collaborators — the ODE
integrator (`self.odesolver.integrate` plus the `successful()` flag it reports
afterwards), the observation map `state_to_obs`, and the subclass's
`_check_current_state`.  Over `ℚ` there is no NaN, so `np.nan_to_num` is the
identity in this embedding. -/
structure EnvStep where
  n_s : ℕ
  n_u : ℕ
  norm_u : Fin n_u → ℚ
  u_min : Fin n_u → ℚ
  u_max : Fin n_u → ℚ
  integrate : (Fin n_u → ℚ) → (Fin n_s → ℚ)
  successful : Bool
  state_to_obs : (Fin n_s → ℚ) → Bool → (Fin n_s → ℚ)
  check_current_state : (Fin n_s → ℚ) → Bool × ℤ

/-- The unnormalized action `self.norm[1] * action` that `Environment.step`
hands to the ODE solver via `set_f_params`. -/
def appliedAction (env : EnvStep) (action : Fin env.n_u → ℚ) : Fin env.n_u → ℚ :=
  fun i => env.norm_u i * action i

/-- The clipped action
`np.clip(np.nan_to_num(action), self.u_min, self.u_max)` of `Environment.step`
(computed from the unnormalized action). -/
def clippedAction (env : EnvStep) (action : Fin env.n_u → ℚ) : Fin env.n_u → ℚ :=
  fun i => npClip (appliedAction env action i) (env.u_min i) (env.u_max i)

/-- The renormalized clipped action
`action_clipped_normalized = self.inv_norm[1] * action_clipped` that
`Environment.step` returns (`inv_norm = norm ** -1`). -/
def returnedAction (env : EnvStep) (action : Fin env.n_u → ℚ) : Fin env.n_u → ℚ :=
  fun i => (env.norm_u i)⁻¹ * clippedAction env action i

/-- Embedded from `Environment.step` (environments.py lines 355–390): the
action is unnormalized and clipped, the ODE solver integrates with the
unnormalized (unclipped) action, the new state is checked and observed, and
then either the five-tuple is returned or, when the solver reports failure,
`ValueError("Odesolver failed!")` is raised. -/
def Environment.step (env : EnvStep) (action : Fin env.n_u → ℚ) :
    Except String
      ((Fin env.n_u → ℚ) × (Fin env.n_s → ℚ) × (Fin env.n_s → ℚ) × Bool × ℤ) :=
  let action_unnorm := appliedAction env action
  let action_clipped := clippedAction env action
  let next_state := env.integrate action_unnorm
  let dr := env.check_current_state next_state
  let new_state_noise_obs := env.state_to_obs next_state true
  let new_state_obs := env.state_to_obs next_state false
  if env.successful then
    Except.ok (fun i => (env.norm_u i)⁻¹ * action_clipped i, new_state_obs,
      new_state_noise_obs, dr.1, dr.2)
  else
    Except.error "Odesolver failed!"

/-- Embedded from `InvertedPendulum._check_current_state` (environments.py
lines 488–503): `res = h_mat_safe @ state - h_safe.T`; the state is satisfied
iff no entry of `res` is positive; the returned status code is always `0`.
(The objective-tracking block above it only prints and mutates bookkeeping
fields; it does not influence the returned pair.) -/
def invpend_check_current_state {m : ℕ} (h_mat_safe : Matrix (Fin m) (Fin 2) ℚ)
    (h_safe : Fin m → ℚ) (state : Fin 2 → ℚ) : Bool × ℤ :=
  let res := fun j => h_mat_safe.mulVec state j - h_safe j
  let satisfied := !decide (∃ j, res j > 0)
  (!satisfied, 0)

/-- The constraint fields of an `InvertedPendulum` instance:
`_init_safety_constraints` stores `h_mat_safe`, `h_safe`, and pins
`h_mat_obs = None`, `h_obs = None`. -/
structure InvertedPendulumEnv where
  m : ℕ
  h_mat_safe : Matrix (Fin m) (Fin 2) ℚ
  h_safe : Fin m → ℚ
  norm_x : Fin 2 → ℚ

/-- Embedded from `InvertedPendulum.get_safety_constraints` (environments.py
lines 833–847): with `normalize=True` the safe matrix is right-multiplied by
`diag(norm_x)` into a fresh array, otherwise the stored matrix is returned;
`h_safe` is returned unchanged, and the obstacle polytope is the stored `None`.
The stored fields are only read, never written. -/
def InvertedPendulum.get_safety_constraints (e : InvertedPendulumEnv)
    (normalize : Bool) :
    Matrix (Fin e.m) (Fin 2) ℚ × (Fin e.m → ℚ) ×
      Option (Matrix (Fin e.m) (Fin 2) ℚ) × Option (Fin e.m → ℚ) :=
  if normalize then
    (e.h_mat_safe * Matrix.diagonal e.norm_x, e.h_safe, none, none)
  else
    (e.h_mat_safe, e.h_safe, none, none)

/-- The constraint fields of a `CartPole` instance.  The getter guards the
obstacle matrix with `if not self.h_mat_obs is None`, so it is embedded as an
`Option`. -/
structure CartPoleEnv where
  m_safe : ℕ
  m_obs : ℕ
  h_mat_safe : Matrix (Fin m_safe) (Fin 4) ℚ
  h_safe : Fin m_safe → ℚ
  h_mat_obs : Option (Matrix (Fin m_obs) (Fin 4) ℚ)
  h_obs : Fin m_obs → ℚ
  norm_x : Fin 4 → ℚ

/-- Embedded from `CartPole.get_safety_constraints` (environments.py lines
1148–1176): with `normalize=True` both the safe matrix and (when present) the
obstacle matrix are right-multiplied by `diag(norm_x)` into fresh arrays; the
constraint vectors are returned unchanged.  The stored fields are only read,
never written. -/
def CartPole.get_safety_constraints (e : CartPoleEnv) (normalize : Bool) :
    Matrix (Fin e.m_safe) (Fin 4) ℚ × (Fin e.m_safe → ℚ) ×
      Option (Matrix (Fin e.m_obs) (Fin 4) ℚ) × (Fin e.m_obs → ℚ) :=
  if normalize then
    (e.h_mat_safe * Matrix.diagonal e.norm_x, e.h_safe,
      e.h_mat_obs.map (fun M => M * Matrix.diagonal e.norm_x), e.h_obs)
  else
    (e.h_mat_safe, e.h_safe, e.h_mat_obs, e.h_obs)

/-- The data of `Environment.linearize_discretize`: the Jacobian of the
dynamics at the origin (`_jac_dynamics()`), the normalization factors, the time
step, and scipy's `cont2discrete` as an external collaborator. -/
structure LinearizeEnv where
  n_s : ℕ
  n_u : ℕ
  jac : Matrix (Fin n_s) (Fin (n_s + n_u)) ℚ
  norm_x : Fin n_s → ℚ
  norm_u : Fin n_u → ℚ
  dt : ℚ
  c2d : Matrix (Fin n_s) (Fin n_s) ℚ → Matrix (Fin n_s) (Fin n_u) ℚ → ℚ →
    Matrix (Fin n_s) (Fin n_s) ℚ × Matrix (Fin n_s) (Fin n_u) ℚ

/-- The left block `jac_ct[:, :n_s]` of the Jacobian. -/
def jacSplitA (e : LinearizeEnv) : Matrix (Fin e.n_s) (Fin e.n_s) ℚ :=
  Matrix.of fun i j => e.jac i (Fin.castAdd e.n_u j)

/-- The right block `jac_ct[:, n_s:]` of the Jacobian. -/
def jacSplitB (e : LinearizeEnv) : Matrix (Fin e.n_s) (Fin e.n_u) ℚ :=
  Matrix.of fun i j => e.jac i (Fin.natAdd e.n_s j)

/-- The normalized continuous-time `A` matrix,
`m_x_inv @ A_ct @ m_x` with `m_x = diag(norm_x)`. -/
def normalizedA (e : LinearizeEnv) : Matrix (Fin e.n_s) (Fin e.n_s) ℚ :=
  Matrix.diagonal (fun i => (e.norm_x i)⁻¹) * jacSplitA e * Matrix.diagonal e.norm_x

/-- The normalized continuous-time `B` matrix,
`m_x_inv @ B_ct @ m_u` with `m_u = diag(norm_u)`. -/
def normalizedB (e : LinearizeEnv) : Matrix (Fin e.n_s) (Fin e.n_u) ℚ :=
  Matrix.diagonal (fun i => (e.norm_x i)⁻¹) * jacSplitB e * Matrix.diagonal e.norm_u

/-- Embedded from `Environment.linearize_discretize` (environments.py lines
315–353): a non-`None` `x_center` or `u_center` raises `NotImplementedError`;
otherwise the Jacobian at the origin is split into `(A_ct, B_ct)`, optionally
normalized by the scaling matrices, and discretized with time step `dt`. -/
def Environment.linearize_discretize (e : LinearizeEnv)
    (x_center : Option (Fin e.n_s → ℚ)) (u_center : Option (Fin e.n_u → ℚ))
    (normalize : Bool) :
    Except String (Matrix (Fin e.n_s) (Fin e.n_s) ℚ × Matrix (Fin e.n_s) (Fin e.n_u) ℚ) :=
  match x_center with
  | some _ => Except.error "For now we only allow linearization at the origin!"
  | none =>
    match u_center with
    | some _ => Except.error "For now we only allow linearization at the origin!"
    | none =>
      if normalize then
        Except.ok (e.c2d (normalizedA e) (normalizedB e) e.dt)
      else
        Except.ok (e.c2d (jacSplitA e) (jacSplitB e) e.dt)

/-- A concrete one-dimensional environment used to evaluate `Environment.step`
at a specific input: action scale `2`, action bounds `[-1, 1]`, a successful
integrator, identity observations. -/
def demoEnv : EnvStep where
  n_s := 1
  n_u := 1
  norm_u := fun _ => 2
  u_min := fun _ => -1
  u_max := fun _ => 1
  integrate := fun _ _ => 0
  successful := true
  state_to_obs := fun s _ => s
  check_current_state := fun _ => (false, 0)

/-- A concrete normalized action for `demoEnv` whose unnormalized value `2`
exceeds `u_max = 1`. -/
def demoAction : Fin demoEnv.n_u → ℚ :=
  fun _ => 1

/-- The single action index of `demoEnv`. -/
def demoIdx : Fin demoEnv.n_u :=
  ⟨0, Nat.one_pos⟩

/-! ## Helper lemmas -/

theorem multistep_go_eq_chain {n_s n_u : ℕ}
    (f : Ctrl n_s n_u → EllState n_s → EllState n_s) :
    ∀ (l : List (Ctrl n_s n_u)) (s : EllState n_s),
      multistep_go f s l =
        ((chain_onestep f s l).map Prod.fst, (chain_onestep f s l).map Prod.snd)
  | [], _ => rfl
  | c :: rest, s => by
    simp only [multistep_go, chain_onestep, List.map_cons]
    rw [multistep_go_eq_chain f rest (f c s)]

theorem chain_onestep_length {n_s n_u : ℕ}
    (f : Ctrl n_s n_u → EllState n_s → EllState n_s) :
    ∀ (l : List (Ctrl n_s n_u)) (s : EllState n_s),
      (chain_onestep f s l).length = l.length
  | [], _ => rfl
  | c :: rest, s => by
    simp only [chain_onestep, List.length_cons]
    rw [chain_onestep_length f rest (f c s)]

/-! ## Claim theorems -/

/-- C1: for every input tuple `(p, Q, k_fb, k_ff, L_mu, L_sigm, c_safety)` with
a fixed GP model (and fixed configurable strategy), the concrete numeric path
and the symbolic/differentiable path of one-step reachability produce the same
output center and shape matrix — in particular equal within `1e-4` absolute /
`1e-3` relative tolerance componentwise. -/
theorem onestep_paths_agree {n_s n_u : ℕ} (strat : ReachStrategy n_s n_u)
    (p : Fin n_s → ℚ) (gp : GP n_s n_u) (k_ff : Fin n_u → ℚ)
    (L_mu L_sigm : Fin n_s → ℚ) (q : Matrix (Fin n_s) (Fin n_s) ℚ)
    (k_fb : Matrix (Fin n_u) (Fin n_s) ℚ) (c_safety : ℚ)
    (ab : Option (Matrix (Fin n_s) (Fin n_s) ℚ × Matrix (Fin n_s) (Fin n_u) ℚ)) :
    onestep_reachability strat p gp k_ff L_mu L_sigm q k_fb c_safety ab =
      onestep_reachability_casadi strat p gp k_ff L_mu L_sigm q k_fb c_safety ab ∧
    (∀ i, |(onestep_reachability strat p gp k_ff L_mu L_sigm q k_fb c_safety ab).1 i -
            (onestep_reachability_casadi strat p gp k_ff L_mu L_sigm q k_fb c_safety ab).1 i| ≤
          1 / 10000 + 1 / 1000 *
            |(onestep_reachability_casadi strat p gp k_ff L_mu L_sigm q k_fb c_safety ab).1 i|) ∧
    (∀ i j, |(onestep_reachability strat p gp k_ff L_mu L_sigm q k_fb c_safety ab).2 i j -
            (onestep_reachability_casadi strat p gp k_ff L_mu L_sigm q k_fb c_safety ab).2 i j| ≤
          1 / 10000 + 1 / 1000 *
            |(onestep_reachability_casadi strat p gp k_ff L_mu L_sigm q k_fb c_safety ab).2 i j|) := by
  have heq : onestep_reachability strat p gp k_ff L_mu L_sigm q k_fb c_safety ab =
      onestep_reachability_casadi strat p gp k_ff L_mu L_sigm q k_fb c_safety ab := rfl
  refine ⟨heq, fun i => ?_, fun i j => ?_⟩ <;>
    · rw [heq, sub_self, abs_zero]
      positivity

/-- C2: the multi-step reachability engine's output trajectory (the `T` centers
and `T` shape matrices) equals the trajectory obtained by applying the one-step
propagator `T` times manually with the same per-step controls, each step's
input ellipsoid being the previous step's output ellipsoid. -/
theorem multistep_matches_manual_chain {n_s n_u : ℕ} (strat : ReachStrategy n_s n_u)
    (gp : GP n_s n_u) (L_mu L_sigm : Fin n_s → ℚ) (c_safety : ℚ)
    (ab : Option (Matrix (Fin n_s) (Fin n_s) ℚ × Matrix (Fin n_s) (Fin n_u) ℚ))
    (p0 : Fin n_s → ℚ) (Q0 : Matrix (Fin n_s) (Fin n_s) ℚ) (u0 : Fin n_u → ℚ)
    (k_fb_base : Matrix (Fin n_u) (Fin n_s) ℚ) (steps : List (Ctrl n_s n_u)) :
    (multistep_reachability strat gp L_mu L_sigm c_safety ab p0 Q0 u0 k_fb_base steps).1 =
      (chain_onestep (onestep_state strat gp L_mu L_sigm c_safety ab) (p0, Q0)
        (multistep_controls u0 k_fb_base steps)).map Prod.fst ∧
    (multistep_reachability strat gp L_mu L_sigm c_safety ab p0 Q0 u0 k_fb_base steps).2 =
      (chain_onestep (onestep_state strat gp L_mu L_sigm c_safety ab) (p0, Q0)
        (multistep_controls u0 k_fb_base steps)).map Prod.snd ∧
    (multistep_reachability strat gp L_mu L_sigm c_safety ab p0 Q0 u0 k_fb_base steps).1.length =
      steps.length + 1 ∧
    (multistep_reachability strat gp L_mu L_sigm c_safety ab p0 Q0 u0 k_fb_base steps).2.length =
      steps.length + 1 := by
  unfold multistep_reachability
  rw [multistep_go_eq_chain]
  refine ⟨rfl, rfl, ?_, ?_⟩ <;>
    · rw [List.length_map, chain_onestep_length]
      simp [multistep_controls]

/-- C3: the decision layer always yields exactly one of the three `MpcResult`
variants, and the rollout loop's recorded exit code is `1` iff the result is
`FOUND_SOLUTION` or `PREVIOUS_SOLUTION` and `0` iff it is `SAFE_CONTROLLER`. -/
theorem mpc_result_exit_code_spec {Act : Type} (optimized reusable : Option Act)
    (safe_act : Act) :
    ((get_action optimized reusable safe_act).2 = MpcResult.FOUND_SOLUTION ∨
      (get_action optimized reusable safe_act).2 = MpcResult.PREVIOUS_SOLUTION ∨
      (get_action optimized reusable safe_act).2 = MpcResult.SAFE_CONTROLLER) ∧
    (∀ r : MpcResult,
      (rollout_exit_code r = 1 ↔
        (r = MpcResult.FOUND_SOLUTION ∨ r = MpcResult.PREVIOUS_SOLUTION)) ∧
      (rollout_exit_code r = 0 ↔ r = MpcResult.SAFE_CONTROLLER)) := by
  constructor
  · cases optimized <;> cases reusable <;> simp [get_action]
  · intro r
    cases r <;> exact ⟨by decide, by decide⟩

/-- C4: the safety certificate checker certifies a trajectory safe iff the
support-function condition `H_i·p + c_safety·sqrt(H_i·Q·H_iᵗ) ≤ h_i` holds for
every ellipsoid and every constraint row; for `H = [[1,0]]`, `h = [1]`,
`Q = diag(0.01, 0)`, `c_safety = 2`, it certifies `p = [0.5, 0]` safe
(`0.5 + 2·0.1 = 0.7 ≤ 1`) and `p = [0.95, 0]` unsafe (`1.15 > 1`). -/
theorem safety_checker_spec :
    (∀ (m n : ℕ) (H : Matrix (Fin m) (Fin n) ℝ) (hvec : Fin m → ℝ) (c : ℝ)
        (traj : List ((Fin n → ℝ) × Matrix (Fin n) (Fin n) ℝ)),
      trajectory_certified H hvec c traj ↔
        ∀ e ∈ traj, ∀ i : Fin m,
          Matrix.dotProduct (fun j => H i j) e.1 +
              c * Real.sqrt
                (Matrix.dotProduct (fun j => H i j) (e.2.mulVec fun j => H i j)) ≤
            hvec i) ∧
    trajectory_certified (Matrix.of ![![(1 : ℝ), 0]]) ![(1 : ℝ)] 2
      [(![(1 : ℝ) / 2, 0], Matrix.diagonal ![(1 : ℝ) / 100, 0])] ∧
    ¬ trajectory_certified (Matrix.of ![![(1 : ℝ), 0]]) ![(1 : ℝ)] 2
      [(![(19 : ℝ) / 20, 0], Matrix.diagonal ![(1 : ℝ) / 100, 0])] := by
  have hsqrt : Real.sqrt (1 / 100) = 1 / 10 := by
    rw [show (1 / 100 : ℝ) = (1 / 10) ^ 2 by norm_num, Real.sqrt_sq (by norm_num)]
  have hdot : ∀ p : Fin 2 → ℝ,
      Matrix.dotProduct (fun j => (Matrix.of ![![(1 : ℝ), 0]]) 0 j) p = p 0 := by
    intro p
    simp [Matrix.dotProduct, Fin.sum_univ_two]
  have hquad :
      Matrix.dotProduct (fun j => (Matrix.of ![![(1 : ℝ), 0]]) 0 j)
        ((Matrix.diagonal ![(1 : ℝ) / 100, 0]).mulVec
          fun j => (Matrix.of ![![(1 : ℝ), 0]]) 0 j) = 1 / 100 := by
    simp [Matrix.dotProduct, Fin.sum_univ_two, Matrix.mulVec_diagonal]
  refine ⟨fun _ _ _ _ _ _ => Iff.rfl, ?_, ?_⟩
  · intro e he i
    rw [List.mem_singleton] at he
    subst he
    have hi : i = 0 := Subsingleton.elim i 0
    subst hi
    unfold row_certified
    rw [hquad, hsqrt, hdot]
    norm_num
  · intro hcert
    have h0 := hcert (![(19 : ℝ) / 20, 0], Matrix.diagonal ![(1 : ℝ) / 100, 0])
      (List.mem_singleton.mpr rfl) 0
    unfold row_certified at h0
    rw [hquad, hsqrt, hdot] at h0
    norm_num at h0

/-- C5: with `Q = 0` the one-step propagator returns the nominal deterministic
prediction with shape matrix from the GP variance alone; in the concrete
`n_s = 2, n_u = 1` scenario with `A = I`, `B = [[0],[1]]` and a GP predicting
zero mean and zero variance it returns exactly `pNew = A·p + B·u` and
`QNew = 0`. -/
theorem onestep_degenerate_spec :
    (∀ (n_s n_u : ℕ) (strat : ReachStrategy n_s n_u) (p : Fin n_s → ℚ)
        (gp : GP n_s n_u) (k_ff : Fin n_u → ℚ) (L_mu L_sigm : Fin n_s → ℚ)
        (k_fb : Matrix (Fin n_u) (Fin n_s) ℚ) (c_safety : ℚ)
        (ab : Option (Matrix (Fin n_s) (Fin n_s) ℚ × Matrix (Fin n_s) (Fin n_u) ℚ)),
      onestep_reachability strat p gp k_ff L_mu L_sigm 0 k_fb c_safety ab =
        (center_update ab p k_ff (gp.predict p k_ff).1,
          gp_variance_shape c_safety (gp.predict p k_ff).2)) ∧
    (∀ (strat : ReachStrategy 2 1) (p : Fin 2 → ℚ) (u : Fin 1 → ℚ)
        (L_mu L_sigm : Fin 2 → ℚ) (k_fb : Matrix (Fin 1) (Fin 2) ℚ) (c_safety : ℚ),
      onestep_reachability strat p (zero_gp 2 1) u L_mu L_sigm 0 k_fb c_safety
          (some (1, scenarioB)) =
        ((1 : Matrix (Fin 2) (Fin 2) ℚ).mulVec p + scenarioB.mulVec u, 0)) := by
  constructor
  · intro n_s n_u strat p gp k_ff L_mu L_sigm k_fb c_safety ab
    simp [onestep_reachability]
  · intro strat p u L_mu L_sigm k_fb c_safety
    simp [onestep_reachability, center_update, zero_gp, gp_variance_shape]
    rfl

/-- C6: `Environment.step` surfaces an unsuccessful integration as a raised
`ValueError` (no retry); otherwise it returns the five-tuple of clipped
normalized action, next observation, noisy observation, done flag, and result
code. -/
theorem step_surfaces_integrator_failure (env : EnvStep)
    (action : Fin env.n_u → ℚ) :
    Environment.step env action =
      cond env.successful
        (Except.ok (returnedAction env action,
          env.state_to_obs (env.integrate (appliedAction env action)) false,
          env.state_to_obs (env.integrate (appliedAction env action)) true,
          (env.check_current_state (env.integrate (appliedAction env action))).1,
          (env.check_current_state (env.integrate (appliedAction env action))).2))
        (Except.error "Odesolver failed!") := by
  cases h : env.successful
  · simp [Environment.step, h]
  · simp [Environment.step, h]
    rfl

/-- C7: `InvertedPendulum._check_current_state` reports the episode done iff
some safety-constraint row satisfies `H_i·x > h_i`, and the status code is
always `0`. -/
theorem invpend_check_state_spec {m : ℕ} (H : Matrix (Fin m) (Fin 2) ℚ)
    (hvec : Fin m → ℚ) (x : Fin 2 → ℚ) :
    ((invpend_check_current_state H hvec x).1 = true ↔
      ∃ i : Fin m, Matrix.dotProduct (fun j => H i j) x > hvec i) ∧
    (invpend_check_current_state H hvec x).2 = 0 := by
  constructor
  · simp [invpend_check_current_state, Matrix.mulVec, sub_pos]
  · rfl

/-- C8: for both environments, `get_safety_constraints` with `normalize=True`
returns the safe matrix right-multiplied by `diag(norm_x)` (likewise the
obstacle matrix when present; the pendulum returns `None` for it) with the
constraint vectors unchanged; with `normalize=False` it returns the stored
matrices unchanged.  The embedding is a pure function of the stored fields,
which the Python code only reads. -/
theorem get_safety_constraints_spec :
    (∀ e : InvertedPendulumEnv,
      InvertedPendulum.get_safety_constraints e true =
        (e.h_mat_safe * Matrix.diagonal e.norm_x, e.h_safe, none, none) ∧
      InvertedPendulum.get_safety_constraints e false =
        (e.h_mat_safe, e.h_safe, none, none)) ∧
    (∀ e : CartPoleEnv,
      CartPole.get_safety_constraints e true =
        (e.h_mat_safe * Matrix.diagonal e.norm_x, e.h_safe,
          e.h_mat_obs.map (fun M => M * Matrix.diagonal e.norm_x), e.h_obs) ∧
      CartPole.get_safety_constraints e false =
        (e.h_mat_safe, e.h_safe, e.h_mat_obs, e.h_obs)) :=
  ⟨fun _ => ⟨rfl, rfl⟩, fun _ => ⟨rfl, rfl⟩⟩

/-- C9: the action `Environment.step` returns is the unnormalized action
clipped to `[u_min, u_max]` and renormalized, while the integrator receives the
unnormalized action unclipped; when the unnormalized action lies strictly
outside the bounds the returned action (brought back to the unnormalized scale)
differs from the action actually applied to the system. -/
theorem step_returned_vs_applied_action (env : EnvStep) (action : Fin env.n_u → ℚ)
    (i : Fin env.n_u) (hb : env.u_min i ≤ env.u_max i) (hnz : env.norm_u i ≠ 0)
    (hout : appliedAction env action i < env.u_min i ∨
      env.u_max i < appliedAction env action i) :
    returnedAction env action i =
      (env.norm_u i)⁻¹ *
        npClip (env.norm_u i * action i) (env.u_min i) (env.u_max i) ∧
    clippedAction env action i ≠ appliedAction env action i ∧
    env.norm_u i * returnedAction env action i ≠ appliedAction env action i := by
  have hclip : clippedAction env action i ≠ appliedAction env action i := by
    unfold clippedAction npClip
    rcases hout with hlt | hgt
    · have hmax : max (appliedAction env action i) (env.u_min i) = env.u_min i :=
        max_eq_right hlt.le
      rw [hmax, min_eq_left hb]
      exact fun hcontra => absurd hcontra.symm (ne_of_lt hlt)
    · have hge : env.u_max i ≤ max (appliedAction env action i) (env.u_min i) :=
        le_trans hgt.le (le_max_left _ _)
      rw [min_eq_right hge]
      exact fun hcontra => absurd hcontra (ne_of_lt hgt)
  refine ⟨rfl, hclip, ?_⟩
  unfold returnedAction
  rw [mul_inv_cancel_left₀ hnz]
  exact hclip

/-- Witness for C9 at a concrete input: action scale `2`, bounds `[-1, 1]`,
normalized action `1`, so the unnormalized action `2` exceeds `u_max`. -/
theorem step_returned_vs_applied_action_witness :
    (demoEnv.u_min demoIdx ≤ demoEnv.u_max demoIdx ∧ demoEnv.norm_u demoIdx ≠ 0 ∧
      demoEnv.u_max demoIdx < appliedAction demoEnv demoAction demoIdx) ∧
    clippedAction demoEnv demoAction demoIdx ≠ appliedAction demoEnv demoAction demoIdx ∧
    demoEnv.norm_u demoIdx * returnedAction demoEnv demoAction demoIdx ≠
      appliedAction demoEnv demoAction demoIdx :=
  ⟨⟨by show (-1 : ℚ) ≤ 1; norm_num, by show (2 : ℚ) ≠ 0; norm_num,
      by show (1 : ℚ) < 2 * 1; norm_num⟩,
    (step_returned_vs_applied_action demoEnv demoAction demoIdx
      (by show (-1 : ℚ) ≤ 1; norm_num) (by show (2 : ℚ) ≠ 0; norm_num)
      (Or.inr (by show (1 : ℚ) < 2 * 1; norm_num))).2⟩

/-- C10: `Environment.linearize_discretize` raises `NotImplementedError`
exactly when `x_center` or `u_center` is not `None`; with both `None` it
returns the Jacobian at the origin split into `(A, B)`, optionally normalized,
and discretized with time step `dt`. -/
theorem linearize_discretize_spec (e : LinearizeEnv)
    (x_center : Option (Fin e.n_s → ℚ)) (u_center : Option (Fin e.n_u → ℚ))
    (normalize : Bool) :
    (Environment.linearize_discretize e x_center u_center normalize =
        Except.error "For now we only allow linearization at the origin!" ↔
      x_center.isSome ∨ u_center.isSome) ∧
    Environment.linearize_discretize e none none normalize =
      Except.ok (e.c2d (cond normalize (normalizedA e) (jacSplitA e))
        (cond normalize (normalizedB e) (jacSplitB e)) e.dt) := by
  constructor
  · cases x_center <;> cases u_center <;>
      cases normalize <;> simp [Environment.linearize_discretize]
  · cases normalize <;> rfl

end SafeExploration
